import Mathlib

/-!
Shallow embedding of the Tetris game engine from `src/script.js`
(constants, tetromino tables, board, collision, rotation with wall
kicks, line clearing with scoring, the 7-bag randomizer, and the
keyboard-driven state machine), together with theorems settling the
frozen claims about it.

JavaScript arrays become `List`s, `null` board cells become `none`,
truthiness of a cell becomes `Option.isSome`, and the nondeterminism of
`Math.random()` in the Fisher-Yates shuffle is captured by an explicit
oracle `Nat → Nat → Nat` giving, per bag refill and per loop index, the
chosen swap position (clamped into range, as the real one always is).
-/

namespace Tetris

/-- Source: `const COLS = 10`. -/
def COLS : Nat := 10

/-- Source: `const ROWS = 20`. -/
def ROWS : Nat := 20

/-- Board cells hold a locked piece's CSS color string, or nothing. -/
abbrev Color := String

/-- The seven tetromino kinds, keys of the `TETROMINOES` object. -/
inductive PieceType
  | I
  | O
  | T
  | S
  | Z
  | J
  | L
deriving DecidableEq, Repr

/-- Source: `const TYPES = Object.keys(TETROMINOES)`, in object-literal order. -/
def TYPES : List PieceType :=
  [PieceType.I, PieceType.O, PieceType.T, PieceType.S, PieceType.Z, PieceType.J, PieceType.L]

/-- The `matrix` entry of each `TETROMINOES` member (1 = block). -/
def tetMatrix : PieceType → List (List Nat)
  | PieceType.I => [[0, 0, 0, 0], [1, 1, 1, 1], [0, 0, 0, 0], [0, 0, 0, 0]]
  | PieceType.O => [[0, 1, 1, 0], [0, 1, 1, 0], [0, 0, 0, 0], [0, 0, 0, 0]]
  | PieceType.T => [[0, 1, 0, 0], [1, 1, 1, 0], [0, 0, 0, 0], [0, 0, 0, 0]]
  | PieceType.S => [[0, 1, 1, 0], [1, 1, 0, 0], [0, 0, 0, 0], [0, 0, 0, 0]]
  | PieceType.Z => [[1, 1, 0, 0], [0, 1, 1, 0], [0, 0, 0, 0], [0, 0, 0, 0]]
  | PieceType.J => [[1, 0, 0, 0], [1, 1, 1, 0], [0, 0, 0, 0], [0, 0, 0, 0]]
  | PieceType.L => [[0, 0, 1, 0], [1, 1, 1, 0], [0, 0, 0, 0], [0, 0, 0, 0]]

/-- The `color` entry of each `TETROMINOES` member. -/
def tetColor : PieceType → Color
  | PieceType.I => "#00d2ff"
  | PieceType.O => "#ffd400"
  | PieceType.T => "#b45cff"
  | PieceType.S => "#1ee37a"
  | PieceType.Z => "#ff4d4d"
  | PieceType.J => "#3b7bff"
  | PieceType.L => "#ff9f1a"

/-- A piece instance as produced by `createPiece`: kind tag, mutable
shape matrix, color, and origin column `x` / origin row `y` (possibly
negative: above the visible board). -/
structure Piece where
  type : PieceType
  matrix : List (List Nat)
  color : Color
  x : Int
  y : Int
deriving DecidableEq, Repr

/-- The board: ROWS rows of COLS cells, each `null` or a color. -/
abbrev Board := List (List (Option Color))

/-- One all-`null` row, as built by `Array.from({length: COLS}, () => null)`. -/
def emptyRow : List (Option Color) := List.replicate COLS none

/-- Source: `makeMatrix(ROWS, COLS, null)` — the empty board. -/
def emptyBoard : Board := List.replicate ROWS emptyRow

/-- `matrix[r][c]` with JavaScript's out-of-range reads as 0 (falsy). -/
def cellAt (m : List (List Nat)) (r c : Nat) : Nat :=
  (m.getD r []).getD c 0

/-- Source: `createPiece(type)` — fresh matrix copy, spawn at
`x = Math.floor(COLS / 2) - 2`, `y = -1`. -/
def createPiece (t : PieceType) : Piece :=
  { type := t
    matrix := tetMatrix t
    color := tetColor t
    x := (COLS : Int) / 2 - 2
    y := -1 }

/-- Source: `collide(b, piece)`. Scans every occupied shape cell; a cell
mapping to a column outside `[0, COLS)` or a row `≥ ROWS` collides, a
cell on a row `< 0` is skipped, otherwise the board cell's truthiness
decides. -/
def collide (b : Board) (p : Piece) : Bool :=
  (List.range p.matrix.length).any fun r =>
    (List.range ((p.matrix.getD r []).length)).any fun c =>
      if cellAt p.matrix r c = 0 then false
      else
        let bx : Int := p.x + c
        let brow : Int := p.y + r
        if bx < 0 || (COLS : Int) ≤ bx || (ROWS : Int) ≤ brow then true
        else if brow < 0 then false
        else ((b.getD brow.toNat []).getD bx.toNat none).isSome

/-- Write `v` at board position `(r, c)`. -/
def setCell (b : Board) (r c : Nat) (v : Option Color) : Board :=
  b.set r ((b.getD r []).set c v)

/-- Source: `merge(b, piece)` — writes the piece's color into every
occupied cell whose board row and column are both in range. -/
def merge (b : Board) (p : Piece) : Board :=
  (List.range p.matrix.length).foldl
    (fun acc r =>
      (List.range ((p.matrix.getD r []).length)).foldl
        (fun acc2 c =>
          if cellAt p.matrix r c = 0 then acc2
          else
            let brow : Int := p.y + r
            let bx : Int := p.x + c
            if 0 ≤ brow ∧ brow < (ROWS : Int) ∧ 0 ≤ bx ∧ bx < (COLS : Int) then
              setCell acc2 brow.toNat bx.toNat (some p.color)
            else acc2)
        acc)
    b

/-- Source: `rotateClockwise(matrix)` — builds `res` with
`res[x][N - 1 - y] = matrix[y][x]`, i.e. `res[i][j] = matrix[N - 1 - j][i]`. -/
def rotateClockwise (m : List (List Nat)) : List (List Nat) :=
  let N := m.length
  (List.range N).map fun i => (List.range N).map fun j => cellAt m (N - 1 - j) i

/-- Source: `const kicks = [0, -1, 1, -2, 2]` inside `tryRotate`. -/
def kicks : List Int := [0, -1, 1, -2, 2]

/-- The `for (const dx of kicks)` loop of `tryRotate`: `q` already holds
the rotated matrix, `ox` is the saved original column. Returns the piece
at the first non-colliding offset, or `none` when every offset collides. -/
def kickLoop (b : Board) (q : Piece) (ox : Int) : List Int → Option Piece
  | [] => none
  | dx :: rest =>
    let q2 := { q with x := ox + dx }
    if collide b q2 then kickLoop b q ox rest else some q2

/-- Source: `tryRotate(piece)` — rotate, scan the kick offsets, commit
the first legal position or revert matrix and column entirely. -/
def tryRotate (b : Board) (p : Piece) : Piece × Bool :=
  let rotated := rotateClockwise p.matrix
  match kickLoop b { p with matrix := rotated } p.x kicks with
  | some q2 => (q2, true)
  | none => (p, false)

/-- The row-full test of `clearLines`: every column of the row is truthy
(`for x < COLS: if (!board[y][x]) continue outer`). -/
def rowFull (row : List (Option Color)) : Bool :=
  (List.range COLS).all fun c => (row.getD c none).isSome

/-- The `outer:` loop of `clearLines`, scanning `y` from `ROWS - 1` down
to 0. Here `y` is the current index plus one; a full row is spliced out,
an empty row is unshifted at the top, and the same index is re-examined
(`y++` in the source); otherwise the index decreases. The JavaScript
loop always terminates (each splice removes an occupied row); the `fuel`
argument just bounds the recursion, and `clearLinesBoard` passes enough
fuel for the bound never to bite. -/
def clearLoop : Nat → Board → Nat → Nat → Board × Nat
  | 0, b, _, cleared => (b, cleared)
  | fuel + 1, b, y, cleared =>
    if y = 0 then (b, cleared)
    else
      let idx := y - 1
      if rowFull (b.getD idx []) then
        clearLoop fuel (emptyRow :: (b.take idx ++ b.drop (idx + 1))) y (cleared + 1)
      else clearLoop fuel b idx cleared

/-- The board-mutating part of `clearLines`: the resulting grid and the
number of rows cleared. -/
def clearLinesBoard (b : Board) : Board × Nat :=
  clearLoop (ROWS + ROWS + 1) b ROWS 0

/-- Source: `const LINE_SCORES = {1: 40, 2: 100, 3: 300, 4: 1200}`, read
as `LINE_SCORES[cleared] || 0`. -/
def LINE_SCORES (n : Nat) : Nat :=
  match n with
  | 1 => 40
  | 2 => 100
  | 3 => 300
  | 4 => 1200
  | _ => 0

/-- Source: `shuffleInPlace`'s swap `[arr[i], arr[j]] = [arr[j], arr[i]]`. -/
def swapL {α : Type} (l : List α) (i j : Nat) : List α :=
  match l.get? i, l.get? j with
  | some a, some c => (l.set i c).set j a
  | _, _ => l

/-- The Fisher-Yates loop of `shuffleInPlace`, counting `i` down from
`len - 1` to 1; `r i` is the oracle for `Math.floor(Math.random() * (i + 1))`,
clamped into `[0, i]` exactly as the real value always is. -/
def shuffleAux {α : Type} (r : Nat → Nat) : Nat → List α → List α
  | 0, l => l
  | i + 1, l => shuffleAux r i (swapL l (i + 1) (min (r (i + 1)) (i + 1)))

/-- Source: `shuffleInPlace(arr)` with the randomness oracle `r`. -/
def shuffleInPlace {α : Type} (l : List α) (r : Nat → Nat) : List α :=
  shuffleAux r (l.length - 1) l

/-- The mutable bag of the 7-bag generator, plus how many refills have
happened so far (the refill count indexes the randomness oracle). -/
structure BagState where
  bag : List PieceType
  refills : Nat
deriving DecidableEq, Repr

/-- Source: `takeFromBag()` — refill with a freshly shuffled copy of
`TYPES` exactly when the bag is empty, then `pop()` the last entry.
(`sh k` is the randomness oracle of the `k`-th refill; popping an empty
bag never happens after a refill, the fallback mirrors JavaScript's
`undefined` as an arbitrary kind.) -/
def takeFromBag (sh : Nat → Nat → Nat) (s : BagState) : PieceType × BagState :=
  let bag2 := if s.bag.isEmpty then shuffleInPlace TYPES (sh s.refills) else s.bag
  let ref2 := if s.bag.isEmpty then s.refills + 1 else s.refills
  match bag2.getLast? with
  | some k => (k, { bag := bag2.dropLast, refills := ref2 })
  | none => (PieceType.I, { bag := [], refills := ref2 })

/-- `n` consecutive `takeFromBag` draws: the kinds drawn, in order, and
the final bag state. -/
def draws (sh : Nat → Nat → Nat) : BagState → Nat → List PieceType × BagState
  | s, 0 => ([], s)
  | s, n + 1 =>
    let pr := takeFromBag sh s
    let rest := draws sh pr.2 n
    (pr.1 :: rest.1, rest.2)

/-- The free-standing engine variables of the script: board, current and
next piece (`null` before the first game), score/lines/level, the drop
timer, the three state flags, and the randomizer bag. -/
structure GameState where
  board : Board
  current : Option Piece
  next : Option Piece
  score : Nat
  lines : Nat
  level : Nat
  dropInterval : Int
  running : Bool
  paused : Bool
  gameOver : Bool
  dropCounter : Int
  bag : List PieceType
  refills : Nat
deriving DecidableEq, Repr

/-- The downward probing loop shared by `computeGhost`
(`while (!collide(board, {...ghost, y: ghost.y + 1})) ghost.y++`) and
`hardDrop`: returns the final row. The JavaScript loop is unbounded;
`fuel` bounds the recursion, and the termination theorem shows that for
any piece with at least one occupied cell every fuel
`≥ (ROWS - y).toNat` gives the same (true) answer. -/
def ghostLoop (b : Board) : Piece → Nat → Int
  | p, 0 => p.y
  | p, fuel + 1 =>
    if collide b { p with y := p.y + 1 } then p.y
    else ghostLoop b { p with y := p.y + 1 } fuel

/-- Fuel sufficient for `ghostLoop` on a nonempty piece. -/
def ghostFuel (p : Piece) : Nat := ((ROWS : Int) - p.y).toNat

/-- Source: `computeGhost(piece)` — the piece moved to the lowest
non-colliding row; reads the board only. -/
def computeGhost (b : Board) (p : Piece) : Piece :=
  { p with y := ghostLoop b p (ghostFuel p) }

/-- The score/progression part of `clearLines()`: clear full rows on the
board, then on a nonzero count update lines, score (old level!), level
and drop interval. -/
def clearLinesG (g : GameState) : GameState :=
  let pr := clearLinesBoard g.board
  if 0 < pr.2 then
    let lines2 := g.lines + pr.2
    let add := LINE_SCORES pr.2 * g.level
    let newLevel := lines2 / 10 + 1
    let level2 := if newLevel ≠ g.level then newLevel else g.level
    { g with
      board := pr.1
      lines := lines2
      score := g.score + add
      level := level2
      dropInterval := max 90 (900 - ((level2 : Int) - 1) * 70) }
  else { g with board := pr.1 }

/-- Source: `setGameOver()` (DOM and sound effects omitted). -/
def setGameOver (g : GameState) : GameState :=
  { g with running := false, paused := false, gameOver := true }

/-- Source: `lockPiece()` — merge the current piece, run `clearLines`,
promote `next` to `current`, draw a fresh `next` from the bag, and flag
game over when the promoted piece already collides at spawn. -/
def lockPiece (sh : Nat → Nat → Nat) (g : GameState) : GameState :=
  match g.current with
  | none => g
  | some cur =>
    let g1 := clearLinesG { g with board := merge g.board cur }
    let tk := takeFromBag sh { bag := g1.bag, refills := g1.refills }
    let g2 := { g1 with
      current := g1.next
      next := some (createPiece tk.1)
      bag := tk.2.bag
      refills := tk.2.refills }
    match g2.current with
    | some np => if collide g2.board np then setGameOver g2 else g2
    | none => g2

/-- Source: `dropOne()` — advance the current piece one row; on
collision revert the row and lock, reporting whether a lock happened. -/
def dropOne (sh : Nat → Nat → Nat) (g : GameState) : GameState × Bool :=
  match g.current with
  | none => (g, false)
  | some cur =>
    let cur2 := { cur with y := cur.y + 1 }
    if collide g.board cur2 then
      (lockPiece sh { g with current := some { cur2 with y := cur2.y - 1 } }, true)
    else ({ g with current := some cur2 }, false)

/-- Source: `softDrop()` — one `dropOne` step, +1 score when it did not
lock. -/
def softDrop (sh : Nat → Nat → Nat) (g : GameState) : GameState :=
  let pr := dropOne sh g
  if pr.2 then pr.1 else { pr.1 with score := pr.1.score + 1 }

/-- Source: `hardDrop()` — advance while no collision counting the
distance, award `2 × dist`, then lock unconditionally. The while loop is
`ghostLoop` with sufficient fuel. -/
def hardDrop (sh : Nat → Nat → Nat) (g : GameState) : GameState :=
  match g.current with
  | none => g
  | some cur =>
    let fy := ghostLoop g.board cur (ghostFuel cur)
    let dist := (fy - cur.y).toNat
    lockPiece sh { g with current := some { cur with y := fy }, score := g.score + dist * 2 }

/-- Source: `move(dx)` — shift the current piece's column, reverting
when the shifted position collides. -/
def move (g : GameState) (dx : Int) : GameState :=
  match g.current with
  | none => g
  | some cur =>
    let cur2 := { cur with x := cur.x + dx }
    if collide g.board cur2 then { g with current := some { cur2 with x := cur2.x - dx } }
    else { g with current := some cur2 }

/-- Source: `startNewGame()` — fresh board, reset score/progression and
bag, draw current and next, enter Running (DOM work omitted; the refill
counter only indexes the oracle and is deliberately never reset). -/
def startNewGame (sh : Nat → Nat → Nat) (g : GameState) : GameState :=
  let t1 := takeFromBag sh { bag := [], refills := g.refills }
  let t2 := takeFromBag sh t1.2
  { board := emptyBoard
    current := some (createPiece t1.1)
    next := some (createPiece t2.1)
    score := 0
    lines := 0
    level := 1
    dropInterval := 900
    running := true
    paused := false
    gameOver := false
    dropCounter := 0
    bag := t2.2.bag
    refills := t2.2.refills }

/-- Source: `togglePause()` — flips `paused` only when running and not
game over. -/
def togglePause (g : GameState) : GameState :=
  if !g.running || g.gameOver then g else { g with paused := !g.paused }

/-- Source: the gravity part of `update(time)` — only when running,
unpaused and not game over does the accumulator advance and, once it
reaches the drop interval, one gravity step run. -/
def update (sh : Nat → Nat → Nat) (g : GameState) (delta : Int) : GameState :=
  if g.running && !g.paused && !g.gameOver then
    let dc := g.dropCounter + delta
    if g.dropInterval ≤ dc then
      { (dropOne sh { g with dropCounter := dc }).1 with dropCounter := 0 }
    else { g with dropCounter := dc }
  else g

/-- The `tryRotate(current)` call of `onKeyDown`: rotation acts on the
current piece against the board (no-op when no piece exists). -/
def rotateCurrent (g : GameState) : GameState :=
  match g.current with
  | none => g
  | some cur => { g with current := some (tryRotate g.board cur).1 }

/-- The key codes `onKeyDown` distinguishes; `Other` stands for every
remaining code. -/
inductive KeyCode
  | Space
  | Enter
  | KeyP
  | ArrowLeft
  | ArrowRight
  | ArrowDown
  | ArrowUp
  | Other
deriving DecidableEq, Repr

/-- Source: `onKeyDown(e)` — quick start from any non-running state on
Space/Enter, a guard for game over, `KeyP` toggling pause, a guard for
paused, then the movement keys (`rep` is `e.repeat`). -/
def handleKey (sh : Nat → Nat → Nat) (g : GameState) (k : KeyCode) (rep : Bool) : GameState :=
  if !g.running then
    if k = KeyCode.Space ∨ k = KeyCode.Enter then startNewGame sh g else g
  else if g.gameOver then g
  else if k = KeyCode.KeyP then togglePause g
  else if g.paused then g
  else
    match k with
    | KeyCode.ArrowLeft => move g (-1)
    | KeyCode.ArrowRight => move g 1
    | KeyCode.ArrowDown => softDrop sh g
    | KeyCode.ArrowUp => if !rep then rotateCurrent g else g
    | KeyCode.Space => if !rep then hardDrop sh g else g
    | _ => g

/-! ### Concrete inputs for witnesses, counterexamples and scenarios -/

/-- The identity randomness oracle (every swap is a self-swap). -/
def shId : Nat → Nat → Nat := fun _ i => i

/-- An oracle whose third bag is shuffled differently from the first
two. -/
def shNear : Nat → Nat → Nat := fun r i => if r = 2 then 0 else i

/-- A wall-hugging O-piece: its occupied columns are 0 and 1, so a move
to the left collides. -/
def wallPiece : Piece := { createPiece PieceType.O with x := -1 }

/-- A running state holding `wallPiece`. -/
def wallState : GameState :=
  { board := emptyBoard
    current := some wallPiece
    next := some (createPiece PieceType.I)
    score := 0
    lines := 0
    level := 1
    dropInterval := 900
    running := true
    paused := false
    gameOver := false
    dropCounter := 0
    bag := []
    refills := 0 }

/-- An Idle state (fresh page: nothing running, no game over). -/
def idleState : GameState :=
  { board := emptyBoard
    current := none
    next := none
    score := 0
    lines := 0
    level := 1
    dropInterval := 900
    running := false
    paused := false
    gameOver := false
    dropCounter := 0
    bag := []
    refills := 0 }

/-- A completely occupied row. -/
def fullRow : List (Option Color) := List.replicate COLS (some "#ff4d4d")

/-- A row with a single occupied cell (not full). -/
def sparseRow : List (Option Color) := some "#3b7bff" :: List.replicate 9 none

/-- A running state whose bottom row is full. -/
def oneLineState : GameState :=
  { wallState with board := List.replicate 19 emptyRow ++ [fullRow] }

/-- A board whose rows from the top are full, full, one-cell, then 17
empty rows. -/
def twoFullBoard : Board := fullRow :: fullRow :: sparseRow :: List.replicate 17 emptyRow

/-- A fresh running game: empty board, O-piece at spawn, an I-piece on
deck — the scenario of claim C6. -/
def oDropState : GameState :=
  { board := emptyBoard
    current := some (createPiece PieceType.O)
    next := some (createPiece PieceType.I)
    score := 0
    lines := 0
    level := 1
    dropInterval := 900
    running := true
    paused := false
    gameOver := false
    dropCounter := 0
    bag := []
    refills := 0 }

/-- The bottom-two-rows hole pattern an O-piece leaves at columns 4–5. -/
def oRow : List (Option Color) :=
  List.replicate 4 none ++ [some (tetColor PieceType.O), some (tetColor PieceType.O)]
    ++ List.replicate 4 none

/-! ## Theorems -/

/-- Per-cell unfolding of the `collide` conditional chain. -/
theorem collide_cell_iff (v : Nat) (bx brow : Int) (occ : Bool) :
    ((if v = 0 then false
      else if bx < 0 || (COLS : Int) ≤ bx || (ROWS : Int) ≤ brow then true
      else if brow < 0 then false else occ) = true)
      ↔ (v ≠ 0 ∧ (bx < 0 ∨ (COLS : Int) ≤ bx ∨ (ROWS : Int) ≤ brow ∨
          (0 ≤ brow ∧ occ = true))) := by
  split_ifs with h1 h2 h3 <;> simp_all <;> try omega
  constructor
  · exact fun h => Or.inr (Or.inr (Or.inr h))
  · rintro (h | h | h | h) <;> first | omega | exact h

/-- Claim C1: for every board and piece, `collide` returns true iff some
occupied cell of the shape maps to a column outside `[0, COLS)`, or to a
row `≥ ROWS`, or to a row `≥ 0` whose board cell is already occupied;
occupied cells on rows `< 0` (within column bounds) alone never force a
collision. -/
theorem collide_iff (b : Board) (p : Piece) :
    collide b p = true ↔
      ∃ r c : Nat, r < p.matrix.length ∧ c < (p.matrix.getD r []).length ∧
        cellAt p.matrix r c ≠ 0 ∧
        (p.x + (c : Int) < 0 ∨ (COLS : Int) ≤ p.x + (c : Int) ∨
          (ROWS : Int) ≤ p.y + (r : Int) ∨
          (0 ≤ p.y + (r : Int) ∧
            ((b.getD (p.y + (r : Int)).toNat []).getD (p.x + (c : Int)).toNat none).isSome = true)) := by
  unfold collide
  simp only [List.any_eq_true, List.mem_range]
  constructor
  · rintro ⟨r, hr, c, hc, hcell⟩
    rw [collide_cell_iff] at hcell
    exact ⟨r, c, hr, hc, hcell.1, hcell.2⟩
  · rintro ⟨r, c, hr, hc, hv, hd⟩
    exact ⟨r, hr, c, hc, (collide_cell_iff _ _ _ _).mpr ⟨hv, hd⟩⟩

/-- A list of length 4 is a literal 4-element list. -/
theorem list_len4 {α : Type} (l : List α) (h : l.length = 4) :
    ∃ a b c d, l = [a, b, c, d] := by
  match l, h with
  | [a, b, c, d], _ => exact ⟨a, b, c, d, rfl⟩

/-- Claim C7: applying `rotateClockwise` four times to any 4×4 shape
matrix returns the original matrix cell-for-cell (so four successful
rotations restore a piece's shape bit-for-bit). -/
theorem rotateClockwise_fourth (m : List (List Nat)) (h1 : m.length = 4)
    (h2 : ∀ row ∈ m, row.length = 4) :
    rotateClockwise (rotateClockwise (rotateClockwise (rotateClockwise m))) = m := by
  obtain ⟨r0, r1, r2, r3, rfl⟩ := list_len4 m h1
  obtain ⟨a0, a1, a2, a3, rfl⟩ := list_len4 r0 (h2 r0 (by simp))
  obtain ⟨b0, b1, b2, b3, rfl⟩ := list_len4 r1 (h2 r1 (by simp))
  obtain ⟨c0, c1, c2, c3, rfl⟩ := list_len4 r2 (h2 r2 (by simp))
  obtain ⟨d0, d1, d2, d3, rfl⟩ := list_len4 r3 (h2 r3 (by simp))
  simp [rotateClockwise, cellAt, List.range_succ]

/-- Witness for C7: the fourth rotation of the concrete T-shape is the
T-shape. -/
theorem rotateClockwise_fourth_witness :
    rotateClockwise (rotateClockwise (rotateClockwise (rotateClockwise
      (tetMatrix PieceType.T)))) = tetMatrix PieceType.T :=
  rotateClockwise_fourth (tetMatrix PieceType.T) (by decide) (by decide)

/-- Claim C2: `tryRotate` computes the clockwise rotation of the shape
and tries it at column offsets 0, −1, +1, −2, +2 in that exact order:
if every offset collides, the piece (shape and column alike) is returned
unchanged with result `false`; otherwise the first non-colliding offset
is committed — shape rotated, column shifted by that offset, row
untouched — with result `true`. -/
theorem tryRotate_spec (b : Board) (p : Piece) :
    ((∀ dx ∈ kicks,
        collide b { p with matrix := rotateClockwise p.matrix, x := p.x + dx } = true) →
      tryRotate b p = (p, false))
    ∧ (∀ i : Nat, i < kicks.length →
        (∀ j : Nat, j < i →
          collide b { p with matrix := rotateClockwise p.matrix, x := p.x + kicks.getD j 0 } = true) →
        collide b { p with matrix := rotateClockwise p.matrix, x := p.x + kicks.getD i 0 } = false →
        tryRotate b p
          = ({ p with matrix := rotateClockwise p.matrix, x := p.x + kicks.getD i 0 }, true)) := by
  constructor
  · intro hall
    have h0 := hall 0 (by simp [kicks])
    have h1 := hall (-1) (by simp [kicks])
    have h2 := hall 1 (by simp [kicks])
    have h3 := hall (-2) (by simp [kicks])
    have h4 := hall 2 (by simp [kicks])
    simp only [add_zero] at h0
    simp [tryRotate, kicks, kickLoop, h0, h1, h2, h3, h4]
  · intro i hi hprev hcur
    have hi5 : i < 5 := by simpa [kicks] using hi
    interval_cases i
    · simp [kicks] at hcur
      simp [tryRotate, kicks, kickLoop, hcur]
    · have p0 := hprev 0 (by omega)
      simp [kicks] at hcur p0
      simp [tryRotate, kicks, kickLoop, hcur, p0]
    · have p0 := hprev 0 (by omega)
      have p1 := hprev 1 (by omega)
      simp [kicks] at hcur p0 p1
      simp [tryRotate, kicks, kickLoop, hcur, p0, p1]
    · have p0 := hprev 0 (by omega)
      have p1 := hprev 1 (by omega)
      have p2 := hprev 2 (by omega)
      simp [kicks] at hcur p0 p1 p2
      simp [tryRotate, kicks, kickLoop, hcur, p0, p1, p2]
    · have p0 := hprev 0 (by omega)
      have p1 := hprev 1 (by omega)
      have p2 := hprev 2 (by omega)
      have p3 := hprev 3 (by omega)
      simp [kicks] at hcur p0 p1 p2 p3
      simp [tryRotate, kicks, kickLoop, hcur, p0, p1, p2, p3]

/-- Witness for C2: on the empty board, rotating a freshly spawned
T-piece succeeds at kick offset 0. -/
theorem tryRotate_spec_witness :
    tryRotate emptyBoard (createPiece PieceType.T)
      = ({ createPiece PieceType.T with
            matrix := rotateClockwise (createPiece PieceType.T).matrix,
            x := (createPiece PieceType.T).x + kicks.getD 0 0 }, true) := by
  have h := (tryRotate_spec emptyBoard (createPiece PieceType.T)).2 0 (by decide)
    (fun j hj => absurd hj (Nat.not_lt_zero j)) (by decide)
  exact h

/-- Claim C8: when the shifted position collides, `move` returns the
whole game state unchanged — the piece's position (and everything else)
is identical and no signal is produced; when it does not collide, the
only change is the current piece's column shifting by exactly `dx`. -/
theorem move_spec (g : GameState) (dx : Int) (cur : Piece) (hc : g.current = some cur) :
    (collide g.board { cur with x := cur.x + dx } = true → move g dx = g)
    ∧ (collide g.board { cur with x := cur.x + dx } = false →
        move g dx = { g with current := some { cur with x := cur.x + dx } }) := by
  cases g with
  | mk board current next score lines level dropInterval running paused gameOver dropCounter bag refills =>
    simp only at hc
    subst hc
    cases cur with
    | mk t m col x y =>
      constructor <;> intro h <;> simp [move, h, add_sub_cancel_right]

/-- Witness for C8: moving the wall-hugging piece further left leaves
the state byte-for-byte unchanged. -/
theorem move_spec_witness : move wallState (-1) = wallState :=
  (move_spec wallState (-1) wallPiece rfl).1 (by decide)

/-- Claim C9: in the Idle and GameOver states (`running = false`) every
key but the quick-start keys Space/Enter leaves the state unchanged; in
the Paused state every key but the pause toggle `KeyP` leaves the state
unchanged; and outside the Running state the gravity tick `update`
changes nothing. All commands are total — no faults. -/
theorem spurious_input_noop (sh : Nat → Nat → Nat) (g : GameState) (rep : Bool) (delta : Int) :
    (g.running = false → ∀ k : KeyCode, k ≠ KeyCode.Space → k ≠ KeyCode.Enter →
      handleKey sh g k rep = g)
    ∧ (g.running = true → g.paused = true → ∀ k : KeyCode, k ≠ KeyCode.KeyP →
      handleKey sh g k rep = g)
    ∧ (¬(g.running = true ∧ g.paused = false ∧ g.gameOver = false) →
      update sh g delta = g) := by
  refine ⟨?_, ?_, ?_⟩
  · intro h k hk1 hk2
    simp [handleKey, h, hk1, hk2]
  · intro h1 h2 k hk
    cases hgo : g.gameOver <;> simp [handleKey, h1, h2, hk, hgo]
  · intro hn
    have hcond : (g.running && !g.paused && !g.gameOver) = false := by
      cases hr : g.running <;> cases hp : g.paused <;> cases hgo : g.gameOver <;> simp_all
    simp [update, hcond]

/-- Witness for C9: in the Idle state an arrow key changes nothing, in
the paused wall state a soft drop changes nothing, and the gravity tick
changes nothing in the Idle state. -/
theorem spurious_input_noop_witness :
    handleKey (fun _ i => i) idleState KeyCode.ArrowLeft false = idleState
    ∧ handleKey (fun _ i => i) { wallState with paused := true } KeyCode.ArrowDown false
        = { wallState with paused := true }
    ∧ update (fun _ i => i) idleState 1000 = idleState :=
  ⟨(spurious_input_noop (fun _ i => i) idleState false 1000).1 rfl KeyCode.ArrowLeft
      (by decide) (by decide),
   (spurious_input_noop (fun _ i => i) { wallState with paused := true } false 1000).2.1 rfl rfl
      KeyCode.ArrowDown (by decide),
   (spurious_input_noop (fun _ i => i) idleState false 1000).2.2 (by decide)⟩

/-- Claim C4: on a nonzero clear count `n`, the score grows by exactly
`LINE_SCORES n` times the level in effect before the clear, the level
becomes `floor(totalLines / 10) + 1`, and the drop interval satisfies
`max 90 (900 - (level - 1) * 70)`; on a zero count, score, lines,
level and drop interval are all unchanged. The table is
`{1: 40, 2: 100, 3: 300, 4: 1200}` and 0 beyond 4. -/
theorem clearLinesG_spec (g : GameState) :
    (0 < (clearLinesBoard g.board).2 →
      (clearLinesG g).score = g.score + LINE_SCORES (clearLinesBoard g.board).2 * g.level
      ∧ (clearLinesG g).lines = g.lines + (clearLinesBoard g.board).2
      ∧ (clearLinesG g).level = (g.lines + (clearLinesBoard g.board).2) / 10 + 1
      ∧ (clearLinesG g).dropInterval
          = max 90 (900 - (((clearLinesG g).level : Int) - 1) * 70))
    ∧ ((clearLinesBoard g.board).2 = 0 →
      (clearLinesG g).score = g.score ∧ (clearLinesG g).lines = g.lines
      ∧ (clearLinesG g).level = g.level ∧ (clearLinesG g).dropInterval = g.dropInterval)
    ∧ LINE_SCORES 1 = 40 ∧ LINE_SCORES 2 = 100 ∧ LINE_SCORES 3 = 300 ∧ LINE_SCORES 4 = 1200
    ∧ (∀ m : Nat, 4 < m → LINE_SCORES m = 0) := by
  refine ⟨?_, ?_, rfl, rfl, rfl, rfl, ?_⟩
  · intro h
    by_cases hn : (g.lines + (clearLinesBoard g.board).2) / 10 + 1 = g.level
    · simp [clearLinesG, h, hn]
    · simp [clearLinesG, h, hn]
  · intro h
    simp [clearLinesG, h]
  · intro m hm
    rcases m with _ | _ | _ | _ | _ | m <;> first | omega | rfl

/-- Witness for C4: clearing the single full bottom row awards
`40 × level = 40` points and bumps the line counter to 1. -/
theorem clearLinesG_spec_witness :
    (clearLinesG oneLineState).score = 40 ∧ (clearLinesG oneLineState).lines = 1 := by
  have h := (clearLinesG_spec oneLineState).1 (by decide)
  refine ⟨?_, ?_⟩
  · rw [h.1]
    decide
  · rw [h.2.1]
    decide

/-- The empty row is never full. -/
theorem rowFull_emptyRow : rowFull emptyRow = false := by decide

/-- `getD` into a replicated prefix. -/
theorem getD_replicate_lt {α : Type} (n i : Nat) (a d : α) (h : i < n) :
    (List.replicate n a).getD i d = a := by
  simp [List.getD_eq_getElem?_getD, List.getElem?_replicate, h]

/-- Counting matches plus surviving non-matches gives the length. -/
theorem countP_add_length_filter_not {α : Type} (l : List α) (p : α → Bool) :
    l.countP p + (l.filter (fun a => !p a)).length = l.length := by
  induction l with
  | nil => rfl
  | cons a t ih =>
    by_cases h : p a = true <;> simp [List.countP_cons, h] <;> omega

/-- When every row below the scan index fails the full test, `clearLoop`
just walks down and stops, returning the board untouched. -/
theorem clearLoop_skip (z : Nat) :
    ∀ (b : Board) (k fuel : Nat), z + 1 ≤ fuel →
      (∀ i, i < z → rowFull (b.getD i []) = false) →
      clearLoop fuel b z k = (b, k) := by
  induction z with
  | zero =>
    intro b k fuel hf _
    match fuel, hf with
    | f + 1, _ => simp [clearLoop]
  | succ z ih =>
    intro b k fuel hf hrows
    match fuel, hf with
    | f + 1, hf =>
      have hz : rowFull (b.getD z []) = false := hrows z (Nat.lt_succ_self z)
      simp only [clearLoop, Nat.succ_ne_zero, if_false, Nat.add_sub_cancel, hz]
      exact ih b k f (by omega) fun i hi => hrows i (by omega)

/-- The central invariant of the `clearLines` scan: with the board split
into `z` already-inserted empty rows on top, an unprocessed middle part
`t`, and an already-scanned full-free bottom part `s`, the loop removes
exactly the full rows of `t`, inserts one empty row per removal at the
top, and keeps the surviving rows of `t` in order above `s`. -/
theorem clearLoop_invariant (t : Board) :
    ∀ (s : Board), (∀ row ∈ s, rowFull row = false) →
      ∀ (z k fuel : Nat),
        z + t.length + t.countP (fun row => rowFull row) + 1 ≤ fuel →
        clearLoop fuel (List.replicate z emptyRow ++ t ++ s) (z + t.length) k
          = (List.replicate (z + t.countP (fun row => rowFull row)) emptyRow
              ++ t.filter (fun row => !rowFull row) ++ s,
             k + t.countP (fun row => rowFull row)) := by
  induction t using List.reverseRecOn with
  | nil =>
    intro s hs z k fuel hf
    simp only [List.length_nil, List.countP_nil, List.filter_nil, Nat.add_zero,
      List.append_nil, List.nil_append]
    exact clearLoop_skip z (List.replicate z emptyRow ++ s) k fuel (by omega)
      fun i hi => by
        rw [List.getD_append _ _ _ i (by simpa using hi), getD_replicate_lt _ _ _ _ hi]
        exact rowFull_emptyRow
  | append_singleton t' r ih =>
    intro s hs z k fuel hf
    have hlen : (t' ++ [r]).length = t'.length + 1 := by simp
    have hcnt : (t' ++ [r]).countP (fun row => rowFull row)
        = t'.countP (fun row => rowFull row) + (if rowFull r then 1 else 0) := by
      simp [List.countP_append, List.countP_cons]
    match fuel, hf with
    | f + 1, hf =>
      rw [hlen, ← Nat.add_assoc]
      have hidx : (List.replicate z emptyRow ++ (t' ++ [r]) ++ s).getD (z + t'.length) [] = r := by
        rw [List.append_assoc, List.getD_append_right _ _ _ _ (by simp)]
        rw [List.length_replicate, Nat.add_sub_cancel_left,
          List.append_assoc, List.singleton_append,
          List.getD_append_right _ _ _ _ (Nat.le_refl _), Nat.sub_self]
        rfl
      simp only [clearLoop, Nat.add_one_ne_zero, if_false, Nat.add_sub_cancel, hidx]
      by_cases hr : rowFull r = true
      · rw [if_pos hr]
        have htake : (List.replicate z emptyRow ++ (t' ++ [r]) ++ s).take (z + t'.length)
            = List.replicate z emptyRow ++ t' := by
          rw [show List.replicate z emptyRow ++ (t' ++ [r]) ++ s
              = (List.replicate z emptyRow ++ t') ++ ([r] ++ s) by simp,
            List.take_left' (by simp; try omega)]
        have hdrop : (List.replicate z emptyRow ++ (t' ++ [r]) ++ s).drop (z + t'.length + 1)
            = s := by
          rw [show List.replicate z emptyRow ++ (t' ++ [r]) ++ s
              = (List.replicate z emptyRow ++ (t' ++ [r])) ++ s by simp,
            List.drop_left' (by simp; try omega)]
        rw [htake, hdrop]
        have hboard : emptyRow :: (List.replicate z emptyRow ++ t' ++ s)
            = List.replicate (z + 1) emptyRow ++ t' ++ s := by
          simp [List.replicate_succ]
        have hy : z + t'.length + 1 = (z + 1) + t'.length := by omega
        rw [hboard, hy]
        rw [ih s hs (z + 1) (k + 1) f (by rw [hcnt, if_pos hr] at hf; simp at hf; omega)]
        rw [hcnt, if_pos hr]
        have hfil : (t' ++ [r]).filter (fun row => !rowFull row)
            = t'.filter (fun row => !rowFull row) := by
          simp [List.filter_append, hr]
        rw [hfil]
        rw [show z + 1 + t'.countP (fun row => rowFull row)
            = z + (t'.countP (fun row => rowFull row) + 1) by omega]
        rw [show k + 1 + t'.countP (fun row => rowFull row)
            = k + (t'.countP (fun row => rowFull row) + 1) by omega]
      · rw [if_neg hr]
        have hb : List.replicate z emptyRow ++ (t' ++ [r]) ++ s
            = List.replicate z emptyRow ++ t' ++ (r :: s) := by simp
        have hs2 : ∀ row ∈ r :: s, rowFull row = false := by
          intro row hrow
          rcases List.mem_cons.mp hrow with h | h
          · rw [h]
            simpa using hr
          · exact hs row h
        rw [hb, ih (r :: s) hs2 z k f (by rw [hcnt, if_neg hr] at hf; omega)]
        rw [hcnt, if_neg hr]
        have hfil : (t' ++ [r]).filter (fun row => !rowFull row)
            = t'.filter (fun row => !rowFull row) ++ [r] := by
          simp [List.filter_append, Bool.not_eq_true] at hr ⊢
          simp [hr]
        rw [hfil]
        simp

/-- Claim C3: line clearing removes exactly the full rows, inserts one
empty row at the top per removal, keeps every surviving row in its
relative order, preserves the total row count, and reports the number
of rows removed. -/
theorem clearLinesBoard_spec (b : Board) (h : b.length = ROWS) :
    clearLinesBoard b
      = (List.replicate (b.countP (fun row => rowFull row)) emptyRow
          ++ b.filter (fun row => !rowFull row),
         b.countP (fun row => rowFull row))
    ∧ (clearLinesBoard b).1.length = ROWS := by
  have hcle : b.countP (fun row => rowFull row) ≤ ROWS := h ▸ List.countP_le_length _
  have inv := clearLoop_invariant b [] (by simp) 0 0 (ROWS + ROWS + 1) (by omega)
  simp only [List.append_nil, List.nil_append, List.replicate, Nat.zero_add, h] at inv
  constructor
  · rw [clearLinesBoard, inv]
  · rw [clearLinesBoard, inv]
    have := countP_add_length_filter_not b (fun row => rowFull row)
    simp only [List.length_append, List.length_replicate]
    omega

/-- Witness for C3: on the {full, full, sparse} board exactly two rows
clear, the top two rows become empty, and the sparse row's content and
relative position among the survivors are preserved. -/
theorem clearLinesBoard_spec_witness :
    clearLinesBoard twoFullBoard
      = (emptyRow :: emptyRow :: sparseRow :: List.replicate 17 emptyRow, 2) := by
  have h := (clearLinesBoard_spec twoFullBoard (by decide)).1
  rw [h]
  decide

/-- Moving the `m`-th element of a list to the front while writing `a`
into its old slot is a permutation of putting `a` in front. -/
theorem cons_set_perm {α : Type} :
    ∀ (t : List α) (m : Nat) (h : m < t.length) (a : α),
      List.Perm (t[m] :: t.set m a) (a :: t) := by
  intro t
  induction t with
  | nil => intro m h a; simp at h
  | cons b t ih =>
    intro m h a
    cases m with
    | zero => simpa using List.Perm.swap a b t
    | succ m =>
      have hm : m < t.length := by simpa using h
      have h1 : List.Perm (t[m] :: b :: t.set m a) (b :: t[m] :: t.set m a) :=
        List.Perm.swap b (t[m]) (t.set m a)
      have h2 : List.Perm (b :: t[m] :: t.set m a) (b :: a :: t) := (ih m hm a).cons b
      have h3 : List.Perm (b :: a :: t) (a :: b :: t) := List.Perm.swap a b t
      simpa using (h1.trans h2).trans h3

/-- Exchanging the entries at two in-range positions is a permutation. -/
theorem set_set_swap_perm {α : Type} :
    ∀ (l : List α) (i j : Nat) (hi : i < l.length) (hj : j < l.length),
      List.Perm ((l.set i l[j]).set j l[i]) l := by
  intro l
  induction l with
  | nil => intro i j hi _; simp at hi
  | cons b t ih =>
    intro i j hi hj
    cases i with
    | zero =>
      cases j with
      | zero => simp
      | succ j =>
        have hjt : j < t.length := by simpa using hj
        simpa using cons_set_perm t j hjt b
    | succ i =>
      have hit : i < t.length := by simpa using hi
      cases j with
      | zero => simpa using cons_set_perm t i hit b
      | succ j =>
        have hjt : j < t.length := by simpa using hj
        simpa using (ih i j hit hjt).cons b

/-- The JavaScript destructuring swap permutes the array. -/
theorem swapL_perm {α : Type} (l : List α) (i j : Nat) : List.Perm (swapL l i j) l := by
  unfold swapL
  cases hi : l.get? i with
  | none => exact List.Perm.refl l
  | some a =>
    cases hj : l.get? j with
    | none => exact List.Perm.refl l
    | some c =>
      have hil : i < l.length := (List.get?_eq_some.mp hi).1
      have hjl : j < l.length := (List.get?_eq_some.mp hj).1
      have hia : l[i] = a := by simpa using (List.get?_eq_some.mp hi).2
      have hjc : l[j] = c := by simpa using (List.get?_eq_some.mp hj).2
      rw [← hia, ← hjc]
      exact set_set_swap_perm l i j hil hjl

/-- Every pass of the Fisher-Yates loop permutes the list. -/
theorem shuffleAux_perm {α : Type} (r : Nat → Nat) :
    ∀ (n : Nat) (l : List α), List.Perm (shuffleAux r n l) l := by
  intro n
  induction n with
  | zero => intro l; exact List.Perm.refl l
  | succ n ih =>
    intro l
    exact (ih (swapL l (n + 1) (min (r (n + 1)) (n + 1)))).trans (swapL_perm l _ _)

/-- `shuffleInPlace` returns a permutation of its input, whatever the
randomness oracle chose. -/
theorem shuffleInPlace_perm {α : Type} (l : List α) (r : Nat → Nat) :
    List.Perm (shuffleInPlace l r) l :=
  shuffleAux_perm r (l.length - 1) l

/-- A refill is a permutation of the seven kinds, hence has 7 entries. -/
theorem shuffle_TYPES_length (r : Nat → Nat) : (shuffleInPlace TYPES r).length = 7 :=
  (shuffleInPlace_perm TYPES r).length_eq

/-- `takeFromBag` on a nonempty bag pops its last entry, no refill. -/
theorem takeFromBag_concat (sh : Nat → Nat → Nat) (b : List PieceType) (a : PieceType)
    (rf : Nat) : takeFromBag sh { bag := b ++ [a], refills := rf } = (a, { bag := b, refills := rf }) := by
  unfold takeFromBag
  simp [List.getLast?_concat, List.dropLast_concat]

/-- `takeFromBag` on an empty bag refills with a shuffled `TYPES` copy,
bumps the refill counter, and pops the last entry of the fresh bag. -/
theorem takeFromBag_empty (sh : Nat → Nat → Nat) (rf : Nat)
    (hne : shuffleInPlace TYPES (sh rf) ≠ []) :
    takeFromBag sh { bag := [], refills := rf }
      = ((shuffleInPlace TYPES (sh rf)).getLast hne,
         { bag := (shuffleInPlace TYPES (sh rf)).dropLast, refills := rf + 1 }) := by
  unfold takeFromBag
  simp [List.getLast?_eq_getLast _ hne]

/-- Draining a bag of `n` entries with `n` draws yields exactly those
entries, last first, and leaves the bag empty with no refill. -/
theorem draws_drain (sh : Nat → Nat → Nat) :
    ∀ (b : List PieceType) (rf : Nat),
      draws sh { bag := b, refills := rf } b.length = (b.reverse, { bag := [], refills := rf }) := by
  intro b
  induction b using List.reverseRecOn with
  | nil => intro rf; rfl
  | append_singleton b' a ih =>
    intro rf
    rw [show (b' ++ [a]).length = b'.length + 1 by simp]
    simp only [draws, takeFromBag_concat, ih rf]
    simp

/-- Draw sequences compose: `m + n` draws are `m` draws followed by `n`
draws from the intermediate state. -/
theorem draws_add (sh : Nat → Nat → Nat) :
    ∀ (m n : Nat) (s : BagState),
      draws sh s (m + n)
        = ((draws sh s m).1 ++ (draws sh (draws sh s m).2 n).1,
           (draws sh (draws sh s m).2 n).2) := by
  intro m
  induction m with
  | zero => intro n s; simp [draws]
  | succ m ih =>
    intro n s
    rw [show m + 1 + n = (m + n) + 1 by omega]
    simp only [draws, ih]
    simp

/-- From an empty bag, seven draws return one full shuffled bag in pop
order and leave the bag empty again after exactly one refill. -/
theorem draws_refill (sh : Nat → Nat → Nat) (rf : Nat) :
    draws sh { bag := [], refills := rf } 7
      = ((shuffleInPlace TYPES (sh rf)).reverse, { bag := [], refills := rf + 1 }) := by
  have hlen := shuffle_TYPES_length (sh rf)
  have hne : shuffleInPlace TYPES (sh rf) ≠ [] := by
    intro hc
    rw [hc] at hlen
    simp at hlen
  have hdl : (shuffleInPlace TYPES (sh rf)).dropLast.length = 6 := by
    rw [List.length_dropLast, hlen]
  have h1 : draws sh { bag := [], refills := rf } 1
      = ([(shuffleInPlace TYPES (sh rf)).getLast hne],
         { bag := (shuffleInPlace TYPES (sh rf)).dropLast, refills := rf + 1 }) := by
    simp [draws, takeFromBag_empty sh rf hne]
  have h2 := draws_drain sh ((shuffleInPlace TYPES (sh rf)).dropLast) (rf + 1)
  rw [hdl] at h2
  have h3 := draws_add sh 1 6 { bag := [], refills := rf }
  rw [show (1 + 6 : Nat) = 7 from rfl, h1] at h3
  simp only [h2] at h3
  rw [h3]
  have hrev : (shuffleInPlace TYPES (sh rf)).reverse
      = (shuffleInPlace TYPES (sh rf)).getLast hne
          :: (shuffleInPlace TYPES (sh rf)).dropLast.reverse := by
    conv => lhs; rw [← List.dropLast_append_getLast hne]
    simp
  rw [hrev]
  simp

/-- Each kind occurs exactly once in the bag template. -/
theorem count_TYPES (k : PieceType) : TYPES.count k = 1 := by
  cases k <;> rfl

/-- Claim C5 (amended): 14 consecutive draws starting from an empty bag
(in particular the first 14 draws of a fresh randomizer, whatever the
shuffles do) contain every kind exactly twice; the bag holds at most 7
entries — at most 6 after any draw; and a refill (a fresh permutation of
all 7 kinds) happens exactly when the bag is empty: an empty-bag draw
bumps the refill counter and bag-plus-drawn-kind is a permutation of
`TYPES`, a nonempty-bag draw keeps the counter and only pops. -/
theorem bag_sevenBag_spec :
    (∀ (sh : Nat → Nat → Nat) (rf : Nat) (k : PieceType),
      ((draws sh { bag := [], refills := rf } 14).1).count k = 2)
    ∧ (∀ (r : Nat → Nat), List.Perm (shuffleInPlace TYPES r) TYPES)
    ∧ (∀ (sh : Nat → Nat → Nat) (s : BagState), s.bag.length ≤ 7 →
        ((takeFromBag sh s).2).bag.length ≤ 6)
    ∧ (∀ (sh : Nat → Nat → Nat) (s : BagState), s.bag = [] →
        ((takeFromBag sh s).2).refills = s.refills + 1
        ∧ List.Perm (((takeFromBag sh s).2).bag ++ [(takeFromBag sh s).1]) TYPES)
    ∧ (∀ (sh : Nat → Nat → Nat) (s : BagState), s.bag ≠ [] →
        ((takeFromBag sh s).2).refills = s.refills
        ∧ ((takeFromBag sh s).2).bag ++ [(takeFromBag sh s).1] = s.bag) := by
  refine ⟨?_, fun r => shuffleInPlace_perm TYPES r, ?_, ?_, ?_⟩
  · intro sh rf k
    have h3 := draws_add sh 7 7 { bag := [], refills := rf }
    rw [show (7 + 7 : Nat) = 14 from rfl, draws_refill sh rf] at h3
    simp only [draws_refill sh (rf + 1)] at h3
    rw [h3]
    simp only [List.count_append, List.count_reverse]
    rw [(shuffleInPlace_perm TYPES (sh rf)).count_eq k,
      (shuffleInPlace_perm TYPES (sh (rf + 1))).count_eq k, count_TYPES]
  · intro sh s h
    unfold takeFromBag
    by_cases he : s.bag.isEmpty
    · have hlen := shuffle_TYPES_length (sh s.refills)
      simp only [he, if_true]
      cases hls : (shuffleInPlace TYPES (sh s.refills)).getLast? <;>
        simp [List.length_dropLast, hlen]
    · simp only [he, if_false]
      cases hls : s.bag.getLast? <;> simp [hls, List.length_dropLast] <;> omega
  · intro sh s hbag
    have hlen := shuffle_TYPES_length (sh s.refills)
    have hne : shuffleInPlace TYPES (sh s.refills) ≠ [] := by
      intro hc
      rw [hc] at hlen
      simp at hlen
    have hs : s = { bag := [], refills := s.refills } := by
      cases s
      simp_all
    rw [hs, takeFromBag_empty sh s.refills hne]
    refine ⟨rfl, ?_⟩
    simp only
    rw [List.dropLast_append_getLast hne]
    exact shuffleInPlace_perm TYPES (sh s.refills)
  · intro sh s hbag
    rcases List.eq_nil_or_concat s.bag with h | ⟨b', a, hconc⟩
    · exact absurd h hbag
    · have hs : s = { bag := b' ++ [a], refills := s.refills } := by
        cases s
        simp_all
      rw [hs, takeFromBag_concat]
      exact ⟨rfl, by simp⟩

/-- Witness for C5: with the identity oracle, the first 14 fresh draws
contain kind I exactly twice, and the first draw refills once. -/
theorem bag_sevenBag_spec_witness :
    ((draws shId { bag := [], refills := 0 } 14).1).count PieceType.I = 2
    ∧ (takeFromBag shId { bag := [], refills := 0 }).2.refills = 1 :=
  ⟨bag_sevenBag_spec.1 shId 0 PieceType.I,
   (bag_sevenBag_spec.2.2.2.1 shId { bag := [], refills := 0 } rfl).1⟩

/-- Counterexample to C5 as stated: a window of 14 consecutive draws
that does not start at a bag boundary (draws 2–15 of a fresh run, with
`shNear` as the shuffle outcome) contains kind L only once, not twice. -/
theorem bag_window_counterexample :
    ((draws shNear { bag := [], refills := 0 } 15).1.drop 1).length = 14
    ∧ ((draws shNear { bag := [], refills := 0 } 15).1.drop 1).count PieceType.L ≠ 2 := by
  exact ⟨by decide, by decide⟩

/-- An occupied shape cell whose board row is at or below `ROWS` forces
a collision, whatever the board holds. -/
theorem collide_of_low (b : Board) (p : Piece) (r c : Nat)
    (hr : r < p.matrix.length) (hc : c < (p.matrix.getD r []).length)
    (hv : cellAt p.matrix r c ≠ 0) (hy : (ROWS : Int) ≤ p.y + (r : Int)) :
    collide b p = true :=
  (collide_iff b p).mpr ⟨r, c, hr, hc, hv, Or.inr (Or.inr (Or.inl hy))⟩

/-- Fuel-independence of the probing loop: for a piece with an occupied
cell, any fuel at least `(ROWS - y).toNat` gives the same result — the
loop stops within that many steps. -/
theorem ghostLoop_stable (b : Board) (r c : Nat) :
    ∀ (n : Nat) (p : Piece) (fuel : Nat),
      r < p.matrix.length → c < (p.matrix.getD r []).length →
      cellAt p.matrix r c ≠ 0 →
      ((ROWS : Int) - p.y).toNat ≤ n → n ≤ fuel →
      ghostLoop b p fuel = ghostLoop b p n := by
  intro n
  induction n with
  | zero =>
    intro p fuel hr hc hv hb hf
    have hy : (ROWS : Int) ≤ p.y := by omega
    have hcol : collide b { p with y := p.y + 1 } = true :=
      collide_of_low b _ r c (by simpa using hr) (by simpa using hc)
        (by simpa [cellAt] using hv) (by simp; omega)
    cases fuel with
    | zero => rfl
    | succ f => simp [ghostLoop, hcol]
  | succ n ih =>
    intro p fuel hr hc hv hb hf
    cases fuel with
    | zero => exact absurd hf (by omega)
    | succ f =>
      by_cases hcol : collide b { p with y := p.y + 1 } = true
      · simp [ghostLoop, hcol]
      · have hcolf : collide b { p with y := p.y + 1 } = false := by
          simpa using hcol
        have hstep : ¬((ROWS : Int) ≤ p.y + 1 + (r : Int)) := fun hge =>
          hcol (collide_of_low b _ r c (by simpa using hr) (by simpa using hc)
            (by simpa [cellAt] using hv) (by simpa using hge))
        simp only [ghostLoop, hcolf, Bool.false_eq_true, if_false]
        exact ih { p with y := p.y + 1 } f (by simpa using hr) (by simpa using hc)
          (by simpa [cellAt] using hv) (by simp; omega) (by omega)

/-- Claim C10: for every board and every piece whose shape has at least
one occupied cell, the downward probing loop of the ghost query and of
hard drop terminates — its result is already final after
`(ROWS - originRow).toNat` iterations, so any larger fuel returns the
same row. (An all-empty shape would probe forever; all 7 kinds are
non-empty.) -/
theorem ghostLoop_terminates (b : Board) (p : Piece)
    (h : ∃ r c : Nat, r < p.matrix.length ∧ c < (p.matrix.getD r []).length ∧
      cellAt p.matrix r c ≠ 0) :
    ∀ fuel : Nat, ghostFuel p ≤ fuel →
      ghostLoop b p fuel = ghostLoop b p (ghostFuel p) := by
  obtain ⟨r, c, hr, hc, hv⟩ := h
  intro fuel hf
  exact ghostLoop_stable b r c (ghostFuel p) p fuel hr hc hv (Nat.le_refl _) hf

/-- Witness for C10: with fuel 30 the loop for a spawned O-piece on the
empty board answers exactly as with its canonical fuel. -/
theorem ghostLoop_terminates_witness :
    ghostLoop emptyBoard (createPiece PieceType.O) 30
      = ghostLoop emptyBoard (createPiece PieceType.O) (ghostFuel (createPiece PieceType.O)) :=
  ghostLoop_terminates emptyBoard (createPiece PieceType.O)
    ⟨0, 1, by decide, by decide, by decide⟩ 30 (by decide)

/-- Counterexample to C6 as stated: hard-dropping the spawned O-piece on
the empty board raises the score from 0 to 38, not to
`(ROWS − 1 − spawnRow) × 2 = 40` — the O-shape occupies matrix rows 0
and 1, so the spawned piece advances only 19 rows, not 20. -/
theorem hardDrop_O_score_counterexample :
    oDropState.score = 0 ∧ (hardDrop shId oDropState).score ≠ 40 := by
  exact ⟨rfl, by decide⟩

/-- Claim C6 (amended): the hard drop locks the O-piece's four cells
into the bottom two rows at columns 4 and 5, increases the score by
exactly `(ROWS − 2 − spawnRow) × 2 = 38` (19 gravity steps at 2 points
each), and clears no lines. -/
theorem hardDrop_O_spec :
    (hardDrop shId oDropState).board = List.replicate 18 emptyRow ++ [oRow, oRow]
    ∧ (hardDrop shId oDropState).score = 38
    ∧ (hardDrop shId oDropState).lines = 0
    ∧ (hardDrop shId oDropState).gameOver = false := by
  exact ⟨by decide, by decide, by decide, by decide⟩

end Tetris
